import Mathlib

/-
Shallow embedding of the collection-level CRUD and bulk-write core of a
MongoDB client driver prototype (src/src/client/coll/mod.rs and
src/src/buf_connection.rs), together with theorems settling the frozen
claims about it.

Conventions of the embedding:
- bson documents are ordered key/value association lists (the bson crate's
  OrderedDocument); `docInsert` follows the linked-hash-map semantics of
  that crate: an existing key is updated in place, a new key is appended
  at the back;
- the command dispatcher (`self.db.command`) is an external collaborator;
  it is passed in as a function from the command document to the reply,
  and every embedded operation also returns the list of command documents
  it handed to the dispatcher, so that pre-dispatch failures are visible
  as an empty list;
- a Rust panic (including `Option::unwrap` on `None`) is modelled by an
  `Option`-valued function returning `none`;
- ObjectId generation is modelled by a counter threaded through the
  insertion path; each generated id is `Bson.objectId ctr`.
-/

/-- Bson value tree: the tagged document tree the core produces and
consumes (only the tags the embedded code touches are carried). -/
inductive Bson where
  | i32 (n : Int)
  | i64 (n : Int)
  | str (s : String)
  | boolean (b : Bool)
  | objectId (n : Nat)
  | document (d : List (String × Bson))
  | array (l : List Bson)
  | null

/-- Ordered bson document: ordered mapping from string keys to values. -/
abbrev BDoc := List (String × Bson)

/-- Lookup of a key in an ordered document (`bson::Document::get`). -/
def docGet : BDoc → String → Option Bson
  | [], _ => none
  | (k, v) :: rest, key => if k = key then some v else docGet rest key

/-- Insertion into an ordered document (`bson::Document::insert`,
linked-hash-map semantics): an existing key is updated in place, a new
key is appended at the back. -/
def docInsert : BDoc → String → Bson → BDoc
  | [], key, val => [(key, val)]
  | (k, v) :: rest, key, val =>
      if k = key then (key, val) :: rest else (k, v) :: docInsert rest key val

/-- Key list of an ordered document (`bson::Document::keys`). -/
def docKeys (d : BDoc) : List String := d.map Prod.fst

/-- Prefix test on strings (`str::starts_with`), phrased on the character
lists so that it evaluates by reduction. -/
def strStartsWith (s pre : String) : Bool := pre.toList.isPrefixOf s.toList

/-- Write concern options (client/common.rs is not under src/; modelled
from the spec: `{w, j, wtimeout_ms}` controlling acknowledgement). -/
structure WriteConcern where
  w : Int
  j : Bool
  wtimeout : Int
deriving DecidableEq

/-- Modelled from the spec: encoding of a write concern to a subdocument
(`WriteConcern::to_bson`, client/common.rs is not under src/). -/
def WriteConcern.to_bson (wc : WriteConcern) : BDoc :=
  [("w", Bson.i32 wc.w), ("j", Bson.boolean wc.j), ("wtimeout", Bson.i32 wc.wtimeout)]

/-- Per-document failure within a batch (`WriteError`, coll/error.rs is
not under src/; modelled from the spec: `{index, code, message}`). -/
structure WriteError where
  index : Int
  code : Int
  message : String
deriving DecidableEq

/-- Acknowledgement-level failure (`WriteConcernError`; modelled from the
spec: `{code, message}`). -/
structure WriteConcernError where
  code : Int
  message : String
deriving DecidableEq

/-- Single-write exception (`WriteException`, coll/error.rs is not under
src/; modelled from the spec). -/
structure WriteException where
  write_error : Option WriteError
  write_concern_error : Option WriteConcernError
deriving DecidableEq

/-- One element of a bulk request (`WriteModel`, coll/options.rs is not
under src/; modelled from the spec: a tagged verb plus payload). -/
inductive WriteModel where
  | insertOne (document : BDoc)
  | deleteOne (filter : BDoc)
  | deleteMany (filter : BDoc)
  | replaceOne (filter : BDoc) (replacement : BDoc) (upsert : Bool)
  | updateOne (filter : BDoc) (update : BDoc) (upsert : Bool)
  | updateMany (filter : BDoc) (update : BDoc) (upsert : Bool)

/-- Bulk-write exception (`BulkWriteException`, coll/error.rs is not under
src/; modelled from the spec: processed and unprocessed requests, the
accumulated write errors and an optional write-concern error; constructed
in src as `BulkWriteException::new(vec![], vec![], vec![], None)`). -/
structure BulkWriteException where
  processed_requests : List WriteModel
  unprocessed_requests : List WriteModel
  write_errors : List WriteError
  write_concern_error : Option WriteConcernError

/-- Constructor used in src (`BulkWriteException::new`). -/
def BulkWriteException.new (p u : List WriteModel) (we : List WriteError)
    (wce : Option WriteConcernError) : BulkWriteException :=
  ⟨p, u, we, wce⟩

/-- Modelled from the spec: `add_unproccessed_model` appends the failing
model to the unprocessed tail (coll/error.rs is not under src/). -/
def BulkWriteException.add_unproccessed_model (e : BulkWriteException)
    (m : WriteModel) : BulkWriteException :=
  { e with unprocessed_requests := e.unprocessed_requests ++ [m] }

/-- Modelled from the spec: `add_unproccessed_models` appends the failing
models to the unprocessed tail (coll/error.rs is not under src/). -/
def BulkWriteException.add_unproccessed_models (e : BulkWriteException)
    (ms : List WriteModel) : BulkWriteException :=
  { e with unprocessed_requests := e.unprocessed_requests ++ ms }

/-- Client error taxonomy (`client::Error`; the variants used by the
embedded code). -/
inductive MongoError where
  | argumentError (msg : String)
  | operationError (msg : String)
  | responseError (msg : String)
  | writeError (e : WriteException)
  | bulkWriteError (e : BulkWriteException)
  | ioError (msg : String)

/-- Modelled from the spec: the fields of a server reply document that the
core consumes (§6); the dispatcher returns the reply already decoded. -/
structure Reply where
  ok : Bool
  n : Int
  writeErrors : List WriteError
  writeConcernError : Option WriteConcernError
  value : Option BDoc

/-- The command dispatcher collaborator: a synchronous function from the
command document to the reply or a transport error. -/
abbrev Dispatcher := BDoc → Except MongoError Reply

/-- Modelled from the spec: `validate_write_result(reply, wc)` examines
`writeErrors` and `writeConcernError`; if either is present and `wc`
requests acknowledgement (`w != 0`), it raises `WriteError` carrying a
`WriteException` built from the first write error; with `w == 0` it
always succeeds (coll/error.rs is not under src/). -/
def WriteException.validate_write_result (reply : Reply) (wc : WriteConcern) :
    Except MongoError Unit :=
  if wc.w = 0 then Except.ok ()
  else if reply.writeErrors = [] ∧ reply.writeConcernError = none then Except.ok ()
  else Except.error (MongoError.writeError
    ⟨reply.writeErrors.head?, reply.writeConcernError⟩)

/-- Modelled from the spec: `validate_bulk_write_result(reply, wc)` has the
same semantics but aggregates all `writeErrors` into a list and produces a
`BulkWriteError(BulkWriteException)` (coll/error.rs is not under src/). -/
def BulkWriteException.validate_bulk_write_result (reply : Reply)
    (wc : WriteConcern) : Except MongoError Unit :=
  if wc.w = 0 then Except.ok ()
  else if reply.writeErrors = [] ∧ reply.writeConcernError = none then Except.ok ()
  else Except.error (MongoError.bulkWriteError
    ⟨[], [], reply.writeErrors, reply.writeConcernError⟩)

/-- Modelled from the spec: downgrading a bulk exception into a single
write exception — the first write error becomes the single
`WriteException.write_error` (coll/error.rs is not under src/). -/
def WriteException.with_bulk_exception (e : BulkWriteException) : WriteException :=
  ⟨e.write_errors.head?, e.write_concern_error⟩

/-- Collection representation. The namespace is kept as the character list
of `"<db>.<coll>"`; `coll_name` carries the short collection name that the
operation builders put into command documents (in the source this is the
value `self.name()` computes from the namespace). -/
structure Collection where
  nspace : List Char
  coll_name : String
  write_concern : WriteConcern

/-- Creation of a collection representation (`Collection::new`): the
namespace is `format!("{}.{}", db.name, name)`. -/
def Collection.new (dbName collName : List Char) (wc : WriteConcern) : Collection :=
  { nspace := dbName ++ '.' :: collName,
    coll_name := String.mk collName,
    write_concern := wc }

/-- Byte index of the first occurrence of a character in a string
(`str::find` on a one-character pattern, counting utf8 bytes). -/
def findByteIdx : List Char → Char → Option Nat
  | [], _ => none
  | c :: rest, t =>
      if c = t then some 0 else (findByteIdx rest t).map (· + c.utf8Size)

/-- Byte offset of the n-th character of a string
(`str::char_indices().nth(n)`, keeping only the offset). -/
def charIndicesNth : List Char → Nat → Option Nat
  | [], _ => none
  | _ :: _, 0 => some 0
  | c :: rest, n + 1 => (charIndicesNth rest n).map (· + c.utf8Size)

/-- Suffix of a string from a given byte offset (`&s[b..]`; the embedded
code only slices at offsets returned by `char_indices`, which are
character boundaries). -/
def byteDropChars : List Char → Nat → List Char
  | s, 0 => s
  | [], _ => []
  | c :: rest, b => byteDropChars rest (b - c.utf8Size)

/-- Extraction of the collection name from the namespace
(`Collection::name`): find the byte index `idx` of the first `.`, then
slice from the byte offset of character number `idx + 1`. `none` models a
panic (either the missing-dot branch or the `unwrap` of `nth`). -/
def Collection.name (c : Collection) : Option (List Char) :=
  match findByteIdx c.nspace '.' with
  | some idx => (charIndicesNth c.nspace (idx + 1)).map (byteDropChars c.nspace)
  | none => none

/-- Client-side validation of a replacement document
(`Collection::validate_replace`): no key may start with `$`. -/
def Collection.validate_replace : BDoc → Except MongoError Unit
  | [] => Except.ok ()
  | (k, _) :: rest =>
      if strStartsWith k "$"
      then Except.error (MongoError.argumentError "Replacement cannot include $ operators.")
      else Collection.validate_replace rest

/-- Client-side validation of an update document
(`Collection::validate_update`): every key must start with `$`. -/
def Collection.validate_update : BDoc → Except MongoError Unit
  | [] => Except.ok ()
  | (k, _) :: rest =>
      if !(strStartsWith k "$")
      then Except.error (MongoError.argumentError "Update only works with $ operators.")
      else Collection.validate_update rest

/-- Ordered integer-keyed id map (`BTreeMap<i64, Bson>`). The embedded
code only ever inserts strictly ascending keys, so appending a fresh key
at the back preserves the sorted-unique-keys representation. -/
abbrev IdMap := List (Int × Bson)

/-- Map insertion (`BTreeMap::insert`): replaces the value of an existing
key, otherwise adds the key. -/
def btreeInsert (m : IdMap) (k : Int) (v : Bson) : IdMap :=
  if m.any (fun p => p.1 == k) then m.map (fun p => if p.1 == k then (k, v) else p)
  else m ++ [(k, v)]

/-- Map removal (`BTreeMap::remove`). -/
def btreeRemove (m : IdMap) (k : Int) : IdMap :=
  m.filter (fun p => !(p.1 == k))

/-- Key membership (`BTreeMap::contains_key`). -/
def btreeHasKey (m : IdMap) (k : Int) : Bool :=
  m.any (fun p => p.1 == k)

/-- Result of `insert_one` (`InsertOneResult`, coll/results.rs is not
under src/; modelled from the spec: `{inserted_id?, exception?}`). -/
structure InsertOneResult where
  inserted_id : Option Bson
  exception : Option WriteException

/-- Constructor used in src (`InsertOneResult::new`). -/
def InsertOneResult.new (id : Option Bson) (exc : Option WriteException) :
    InsertOneResult :=
  ⟨id, exc⟩

/-- Result of `insert_many` (`InsertManyResult`, coll/results.rs is not
under src/; modelled from the spec: `{inserted_ids, exception?}`). -/
structure InsertManyResult where
  inserted_ids : Option IdMap
  exception : Option BulkWriteException

/-- Constructor used in src (`InsertManyResult::new`). -/
def InsertManyResult.new (ids : Option IdMap) (exc : Option BulkWriteException) :
    InsertManyResult :=
  ⟨ids, exc⟩

/-- Result of the update family (`UpdateResult`, coll/results.rs is not
under src/; modelled from the spec: counts from the reply plus an optional
exception). -/
structure UpdateResult where
  matched_count : Int
  exception : Option WriteException

/-- Modelled from the spec: `UpdateResult::new(reply, exception)` reads the
counts from the reply (coll/results.rs is not under src/). -/
def UpdateResult.new (reply : Reply) (exc : Option WriteException) : UpdateResult :=
  ⟨reply.n, exc⟩

/-- Composite result of `bulk_write` (`BulkWriteResult`, coll/results.rs
is not under src/; modelled from the spec: counts, id maps and the
optional bulk-write exception; `BulkWriteResult::new()` starts all at
zero/empty/absent). -/
structure BulkWriteResult where
  inserted_count : Int
  matched_count : Int
  modified_count : Int
  deleted_count : Int
  upserted_count : Int
  inserted_ids : IdMap
  upserted_ids : IdMap
  bulk_write_exception : Option BulkWriteException

/-- Constructor used in src (`BulkWriteResult::new`). -/
def BulkWriteResult.new : BulkWriteResult :=
  ⟨0, 0, 0, 0, 0, [], [], none⟩

/-- Modelled from the spec: `process_insert_one_result` merges a
single-insert outcome into the aggregate at original request index `i` —
on success the inserted count grows and the id is recorded; a reported
write error is appended (reindexed to `i`) to the accumulated exception
(coll/results.rs is not under src/). -/
def BulkWriteResult.process_insert_one_result (res : BulkWriteResult)
    (ir : InsertOneResult) (i : Int) (model : WriteModel)
    (exc : BulkWriteException) : BulkWriteResult × BulkWriteException :=
  match ir.exception with
  | none =>
      ({ res with
           inserted_count := res.inserted_count + 1,
           inserted_ids := btreeInsert res.inserted_ids i (ir.inserted_id.getD Bson.null) },
       { exc with processed_requests := exc.processed_requests ++ [model] })
  | some wexc =>
      ({ res with
           inserted_count := res.inserted_count + (if ir.inserted_id.isSome then 1 else 0) },
       { exc with
           processed_requests := exc.processed_requests ++ [model],
           write_errors := exc.write_errors ++
             (match wexc.write_error with
              | some e => [{ e with index := i }]
              | none => []),
           write_concern_error := wexc.write_concern_error })

/-- Modelled from the spec: `process_insert_many_result` merges a
many-insert outcome into the aggregate — successful ids are merged into
the id map, the inserted count grows by the number of successes, and the
batch's write errors and write-concern error are appended to the
accumulated exception (coll/results.rs is not under src/). -/
def BulkWriteResult.process_insert_many_result (res : BulkWriteResult)
    (ir : InsertManyResult) (models : List WriteModel)
    (exc : BulkWriteException) : BulkWriteResult × BulkWriteException :=
  let m := ir.inserted_ids.getD []
  let res1 := { res with
                  inserted_count := res.inserted_count + m.length,
                  inserted_ids := m.foldl (fun a p => btreeInsert a p.1 p.2) res.inserted_ids }
  match ir.exception with
  | none =>
      (res1, { exc with processed_requests := exc.processed_requests ++ models })
  | some bexc =>
      (res1, { exc with
                 processed_requests := exc.processed_requests ++ models,
                 write_errors := exc.write_errors ++ bexc.write_errors,
                 write_concern_error := bexc.write_concern_error })

/-- Identifier assignment loop of `Collection::insert`: for each document,
a present `_id` is recorded; an absent one is generated from the counter,
added to the document (`bson::Document::insert` appends a new key at the
back) and recorded. Returns the converted documents, the positional id
list and the next counter value. -/
def assignIds : List BDoc → Nat → List BDoc × List Bson × Nat
  | [], ctr => ([], [], ctr)
  | doc :: rest, ctr =>
      match docGet doc "_id" with
      | some id =>
          let (cds, ids, ctr') := assignIds rest ctr
          (doc :: cds, id :: ids, ctr')
      | none =>
          let id := Bson.objectId ctr
          let (cds, ids, ctr') := assignIds rest (ctr + 1)
          (docInsert doc "_id" id :: cds, id :: ids, ctr')

/-- Internal insertion helper (`Collection::insert`): assigns ids, builds
the insert command, dispatches it, and intercepts bulk write exceptions
into the result. Besides the source's return value it returns the list of
dispatched commands and the final id counter. -/
def Collection.insert (c : Collection) (docs : List BDoc) (ordered : Bool)
    (write_concern : Option WriteConcern) (dispatch : Dispatcher) (ctr : Nat) :
    Except MongoError (List Bson × Option BulkWriteException) × List BDoc × Nat :=
  let wc := write_concern.getD c.write_concern
  let (converted_docs, ids, ctr') := assignIds docs ctr
  let cmd : BDoc :=
    [("insert", Bson.str c.coll_name),
     ("documents", Bson.array (converted_docs.map Bson.document)),
     ("ordered", Bson.boolean ordered),
     ("writeConcern", Bson.document wc.to_bson)]
  match dispatch cmd with
  | Except.error e => (Except.error e, [cmd], ctr')
  | Except.ok result =>
      match BulkWriteException.validate_bulk_write_result result wc with
      | Except.ok () => (Except.ok (ids, none), [cmd], ctr')
      | Except.error (MongoError.bulkWriteError err) =>
          (Except.ok (ids, some err), [cmd], ctr')
      | Except.error e => (Except.error e, [cmd], ctr')

/-- Insertion of one document (`Collection::insert_one`): calls the helper
on a one-element list, errors when no id came back, downgrades a bulk
exception to a single write exception, and clears the id when a write
error was reported. -/
def Collection.insert_one (c : Collection) (doc : BDoc)
    (write_concern : Option WriteConcern) (dispatch : Dispatcher) (ctr : Nat) :
    Except MongoError InsertOneResult × List BDoc × Nat :=
  match c.insert [doc] true write_concern dispatch ctr with
  | (Except.error e, ds, ctr') => (Except.error e, ds, ctr')
  | (Except.ok (ids, bulk_exception), ds, ctr') =>
      if ids.length = 0 then
        (Except.error (MongoError.operationError "No ids returned for insert_one."), ds, ctr')
      else
        let exception := bulk_exception.map WriteException.with_bulk_exception
        let id := match exception with
          | some exc =>
              match exc.write_error with
              | some _ => none
              | none => some (ids.headD Bson.null)
          | none => some (ids.headD Bson.null)
        (Except.ok (InsertOneResult.new id exception), ds, ctr')

/-- Insertion of many documents (`Collection::insert_many`): calls the
helper, builds the index-keyed id map, and removes every index named by a
reported write error. -/
def Collection.insert_many (c : Collection) (docs : List BDoc) (ordered : Bool)
    (write_concern : Option WriteConcern) (dispatch : Dispatcher) (ctr : Nat) :
    Except MongoError InsertManyResult × List BDoc × Nat :=
  match c.insert docs ordered write_concern dispatch ctr with
  | (Except.error e, ds, ctr') => (Except.error e, ds, ctr')
  | (Except.ok (ids, exception), ds, ctr') =>
      let map0 := (List.range ids.length).foldl
        (fun m (i : Nat) => btreeInsert m (i : Int) (ids.getD i Bson.null)) []
      let map := match exception with
        | some exc => exc.write_errors.foldl (fun m error => btreeRemove m error.index) map0
        | none => map0
      (Except.ok (InsertManyResult.new (some map) exception), ds, ctr')

/-- Batch of homogeneous writes (`Batch`, coll/batch.rs is not under
src/). The single-arm exhaustive match in `Collection::execute_batch`
shows the type has exactly the insert variant in the source. -/
inductive Batch where
  | insert (documents : List BDoc)

/-- Batching of an unordered bulk request
(`Collection::get_unordered_batches`): only `InsertOne` models are
collected; everything is flattened into one insert batch. -/
def Collection.get_unordered_batches (requests : List WriteModel) : List Batch :=
  let inserts := requests.foldl
    (fun inserts req =>
      match req with
      | WriteModel.insertOne document => inserts ++ [document]
      | _ => inserts) []
  [Batch.insert inserts]

/-- Batching of an ordered bulk request
(`Collection::get_ordered_batches`): identical to the unordered case in
the source. -/
def Collection.get_ordered_batches (requests : List WriteModel) : List Batch :=
  let inserts := requests.foldl
    (fun inserts req =>
      match req with
      | WriteModel.insertOne document => inserts ++ [document]
      | _ => inserts) []
  [Batch.insert inserts]

/-- Execution of a one-document insert batch
(`Collection::execute_insert_one_batch`). -/
def Collection.execute_insert_one_batch (c : Collection) (document : BDoc)
    (i : Int) (result : BulkWriteResult) (exception : BulkWriteException)
    (dispatch : Dispatcher) (ctr : Nat) :
    BulkWriteResult × BulkWriteException × List BDoc × Nat :=
  let model := WriteModel.insertOne document
  match c.insert_one document none dispatch ctr with
  | (Except.ok insert_result, ds, ctr') =>
      let (r', e') := result.process_insert_one_result insert_result i model exception
      (r', e', ds, ctr')
  | (Except.error _, ds, ctr') =>
      (result, exception.add_unproccessed_model model, ds, ctr')

/-- Execution of a many-document insert batch
(`Collection::execute_insert_many_batch`). -/
def Collection.execute_insert_many_batch (c : Collection) (documents : List BDoc)
    (ordered : Bool) (result : BulkWriteResult) (exception : BulkWriteException)
    (dispatch : Dispatcher) (ctr : Nat) :
    BulkWriteResult × BulkWriteException × List BDoc × Nat :=
  let models := documents.map (fun doc => WriteModel.insertOne doc)
  match c.insert_many documents ordered none dispatch ctr with
  | (Except.ok insert_result, ds, ctr') =>
      let (r', e') := result.process_insert_many_result insert_result models exception
      (r', e', ds, ctr')
  | (Except.error _, ds, ctr') =>
      (result, exception.add_unproccessed_models models, ds, ctr')

/-- Execution of one batch (`Collection::execute_batch`): a one-element
insert batch goes through the single-insert path (`Vec::pop` takes the
last, hence only, document), anything else through the many path. -/
def Collection.execute_batch (c : Collection) (batch : Batch) (ordered : Bool)
    (i : Int) (result : BulkWriteResult) (exception : BulkWriteException)
    (dispatch : Dispatcher) (ctr : Nat) :
    BulkWriteResult × BulkWriteException × List BDoc × Nat :=
  match batch with
  | Batch.insert documents =>
      if documents.length = 1 then
        c.execute_insert_one_batch (documents.getLastD []) i result exception dispatch ctr
      else
        c.execute_insert_many_batch documents ordered result exception dispatch ctr

/-- Bulk write (`Collection::bulk_write`): batches the requests, executes
every batch in order accumulating into the result and the exception, and
finally attaches the exception to the result when (and only when) the
unprocessed request list is empty. -/
def Collection.bulk_write (c : Collection) (requests : List WriteModel)
    (ordered : Bool) (dispatch : Dispatcher) (ctr : Nat) :
    BulkWriteResult × List BDoc × Nat :=
  let batches := if ordered then Collection.get_ordered_batches requests
                 else Collection.get_unordered_batches requests
  let st := batches.enum.foldl
    (fun st ib =>
      let (result, exception, ds, k) := st
      let (r', e', ds', k') :=
        c.execute_batch ib.2 ordered (ib.1 : Int) result exception dispatch k
      (r', e', ds ++ ds', k'))
    (BulkWriteResult.new, BulkWriteException.new [] [] [] none, ([] : List BDoc), ctr)
  let (result, exception, ds, k) := st
  let result := if exception.unprocessed_requests.length = 0
                then { result with bulk_write_exception := some exception }
                else result
  (result, ds, k)

/-- Internal update helper (`Collection::update`): builds the update
command, dispatches it, and intercepts write exceptions into the
result. -/
def Collection.update (c : Collection) (filter update : BDoc)
    (upsert multi : Bool) (write_concern : Option WriteConcern)
    (dispatch : Dispatcher) : Except MongoError UpdateResult × List BDoc :=
  let wc := write_concern.getD c.write_concern
  let updates0 : BDoc :=
    [("q", Bson.document filter), ("u", Bson.document update),
     ("upsert", Bson.boolean upsert)]
  let updates := if multi then docInsert updates0 "multi" (Bson.boolean multi)
                 else updates0
  let cmd : BDoc :=
    [("update", Bson.str c.coll_name),
     ("updates", Bson.array [Bson.document updates]),
     ("writeConcern", Bson.document wc.to_bson)]
  match dispatch cmd with
  | Except.error e => (Except.error e, [cmd])
  | Except.ok result =>
      match WriteException.validate_write_result result wc with
      | Except.ok () => (Except.ok (UpdateResult.new result none), [cmd])
      | Except.error (MongoError.writeError err) =>
          (Except.ok (UpdateResult.new result (some err)), [cmd])
      | Except.error e => (Except.error e, [cmd])

/-- Replacement of a single document (`Collection::replace_one`): the
replacement is validated before the update path runs. -/
def Collection.replace_one (c : Collection) (filter replacement : BDoc)
    (upsert : Bool) (write_concern : Option WriteConcern)
    (dispatch : Dispatcher) : Except MongoError UpdateResult × List BDoc :=
  match Collection.validate_replace replacement with
  | Except.error e => (Except.error e, [])
  | Except.ok () => c.update filter replacement upsert false write_concern dispatch

/-- Update of a single document (`Collection::update_one`): the update is
validated before the update path runs. -/
def Collection.update_one (c : Collection) (filter update : BDoc)
    (upsert : Bool) (write_concern : Option WriteConcern)
    (dispatch : Dispatcher) : Except MongoError UpdateResult × List BDoc :=
  match Collection.validate_update update with
  | Except.error e => (Except.error e, [])
  | Except.ok () => c.update filter update upsert false write_concern dispatch

/-- Update of many documents (`Collection::update_many`): the update is
validated before the update path runs. -/
def Collection.update_many (c : Collection) (filter update : BDoc)
    (upsert : Bool) (write_concern : Option WriteConcern)
    (dispatch : Dispatcher) : Except MongoError UpdateResult × List BDoc :=
  match Collection.validate_update update with
  | Except.error e => (Except.error e, [])
  | Except.ok () => c.update filter update upsert true write_concern dispatch

/-- Helper for the findAndModify family (`Collection::find_and_modify`):
builds the findAndModify command around the verb-specific fields, then
dispatches, validates the reply and extracts `value`. -/
def Collection.find_and_modify (c : Collection) (cmd : BDoc) (filter : BDoc)
    (projection sort : Option BDoc) (write_concern : Option WriteConcern)
    (dispatch : Dispatcher) : Except MongoError (Option BDoc) × List BDoc :=
  let wc := write_concern.getD c.write_concern
  let new_cmd0 : BDoc :=
    [("findAndModify", Bson.str c.coll_name),
     ("query", Bson.document filter),
     ("writeConcern", Bson.document wc.to_bson)]
  let new_cmd1 := match sort with
    | some s => docInsert new_cmd0 "sort" (Bson.document s)
    | none => new_cmd0
  let new_cmd2 := match projection with
    | some p => docInsert new_cmd1 "fields" (Bson.document p)
    | none => new_cmd1
  let new_cmd := cmd.foldl (fun acc kv => docInsert acc kv.1 kv.2) new_cmd2
  match dispatch new_cmd with
  | Except.error e => (Except.error e, [new_cmd])
  | Except.ok res =>
      match WriteException.validate_write_result res wc with
      | Except.ok () => (Except.ok res.value, [new_cmd])
      | Except.error e => (Except.error e, [new_cmd])

/-- Helper for validated replace and update findAndModify commands
(`Collection::find_one_and_replace_or_update`). -/
def Collection.find_one_and_replace_or_update (c : Collection)
    (filter update : BDoc) (after : Bool) (projection sort : Option BDoc)
    (upsert : Bool) (write_concern : Option WriteConcern)
    (dispatch : Dispatcher) : Except MongoError (Option BDoc) × List BDoc :=
  let cmd0 : BDoc := [("update", Bson.document update)]
  let cmd1 := if after then docInsert cmd0 "new" (Bson.boolean true) else cmd0
  let cmd2 := if upsert then docInsert cmd1 "upsert" (Bson.boolean true) else cmd1
  c.find_and_modify cmd2 filter projection sort write_concern dispatch

/-- Options of the findAndModify replace/update family
(`FindOneAndUpdateOptions`, coll/options.rs is not under src/; modelled
from the spec: return-document choice already converted to its boolean
form, projection, sort, upsert and write concern). -/
structure FindOneAndUpdateOptions where
  return_document_after : Bool
  projection : Option BDoc
  sort : Option BDoc
  upsert : Bool
  write_concern : Option WriteConcern

/-- Modelled from the spec: default findAndModify options
(`FindOneAndUpdateOptions::new`). -/
def FindOneAndUpdateOptions.new : FindOneAndUpdateOptions :=
  ⟨false, none, none, false, none⟩

/-- Find-and-replace (`Collection::find_one_and_replace`): the replacement
is validated before the findAndModify path runs. -/
def Collection.find_one_and_replace (c : Collection) (filter replacement : BDoc)
    (options : Option FindOneAndUpdateOptions) (dispatch : Dispatcher) :
    Except MongoError (Option BDoc) × List BDoc :=
  let opts := options.getD FindOneAndUpdateOptions.new
  match Collection.validate_replace replacement with
  | Except.error e => (Except.error e, [])
  | Except.ok () =>
      c.find_one_and_replace_or_update filter replacement
        opts.return_document_after opts.projection opts.sort opts.upsert
        opts.write_concern dispatch

/-- Find-and-update (`Collection::find_one_and_update`): the update is
validated before the findAndModify path runs. -/
def Collection.find_one_and_update (c : Collection) (filter update : BDoc)
    (options : Option FindOneAndUpdateOptions) (dispatch : Dispatcher) :
    Except MongoError (Option BDoc) × List BDoc :=
  let opts := options.getD FindOneAndUpdateOptions.new
  match Collection.validate_update update with
  | Except.error e => (Except.error e, [])
  | Except.ok () =>
      c.find_one_and_replace_or_update filter update
        opts.return_document_after opts.projection opts.sort opts.upsert
        opts.write_concern dispatch

/-- Plain TCP transport handle (src/src/buf_connection.rs; the socket
itself is external, carried as an opaque handle). -/
structure TcpStreamM where
  handle : Nat
deriving DecidableEq

/-- TLS transport wrapping a TCP stream. -/
structure TlsStreamM where
  inner : TcpStreamM
deriving DecidableEq

/-- Buffered stream wrapper (`bufstream::BufStream`). -/
structure BufStreamM (α : Type) where
  inner : α
deriving DecidableEq

/-- Buffered connection over either transport (`BufConnection`): a
boolean variant tag and one optional stream per variant. -/
structure BufConnection where
  tls : Bool
  tls_stream : Option (BufStreamM TlsStreamM)
  tcp_stream : Option (BufStreamM TcpStreamM)
deriving DecidableEq

/-- Construction of a plain connection (`BufConnection::new_tcp`). -/
def BufConnection.new_tcp (stream : BufStreamM TcpStreamM) : BufConnection :=
  { tls := false, tcp_stream := some stream, tls_stream := none }

/-- Construction of a TLS connection (`BufConnection::new_tls`). -/
def BufConnection.new_tls (stream : BufStreamM TlsStreamM) : BufConnection :=
  { tls := true, tcp_stream := none, tls_stream := some stream }

/-- Read (`<BufConnection as Read>::read`): selects the stream matching
the variant tag and performs the external read on it; `none` models the
panic arms. The byte transfer itself happens on the external stream, so
the connection value is returned unchanged. -/
def BufConnection.read (c : BufConnection) : Option BufConnection :=
  match c.tls with
  | true =>
      match c.tls_stream with
      | some _ => some c
      | none => none
  | false =>
      match c.tcp_stream with
      | some _ => some c
      | none => none

/-- Read to end (`<BufConnection as Read>::read_to_end`): same selection
shape as `read`. -/
def BufConnection.read_to_end (c : BufConnection) : Option BufConnection :=
  match c.tls with
  | true =>
      match c.tls_stream with
      | some _ => some c
      | none => none
  | false =>
      match c.tcp_stream with
      | some _ => some c
      | none => none

/-- Write (`<BufConnection as Write>::write`): same selection shape. -/
def BufConnection.write (c : BufConnection) : Option BufConnection :=
  match c.tls with
  | true =>
      match c.tls_stream with
      | some _ => some c
      | none => none
  | false =>
      match c.tcp_stream with
      | some _ => some c
      | none => none

/-- Flush (`<BufConnection as Write>::flush`): same selection shape. -/
def BufConnection.flush (c : BufConnection) : Option BufConnection :=
  match c.tls with
  | true =>
      match c.tls_stream with
      | some _ => some c
      | none => none
  | false =>
      match c.tcp_stream with
      | some _ => some c
      | none => none

/-- Access to the underlying TCP handle (`BufConnection::get_ref`): for
the TLS variant it unwraps both layers. -/
def BufConnection.get_ref (c : BufConnection) : Option TcpStreamM :=
  match c.tls with
  | true =>
      match c.tls_stream with
      | some stream => some stream.inner.inner
      | none => none
  | false =>
      match c.tcp_stream with
      | some stream => some stream.inner
      | none => none

/-- Mutable access to the underlying TCP handle
(`BufConnection::get_mut`): same selection shape as `get_ref`. -/
def BufConnection.get_mut (c : BufConnection) : Option TcpStreamM :=
  match c.tls with
  | true =>
      match c.tls_stream with
      | some stream => some stream.inner.inner
      | none => none
  | false =>
      match c.tcp_stream with
      | some stream => some stream.inner
      | none => none

/-- Variant invariant of a buffered connection: the tag agrees with which
stream field is populated. -/
def BufConnection.WF (c : BufConnection) : Prop :=
  (c.tls = true ↔ c.tls_stream.isSome) ∧ (c.tls = false ↔ c.tcp_stream.isSome)

instance (c : BufConnection) : Decidable c.WF := by
  unfold BufConnection.WF
  infer_instance

/-- Derived characterization of the exception that
`validate_bulk_write_result` makes `Collection::insert` intercept for a
given reply and effective write concern. -/
def bulkExceptionOf (reply : Reply) (wc : WriteConcern) : Option BulkWriteException :=
  if wc.w = 0 then none
  else if reply.writeErrors = [] ∧ reply.writeConcernError = none then none
  else some ⟨[], [], reply.writeErrors, reply.writeConcernError⟩

/-- The write errors recorded in an optional bulk-write exception. -/
def excWriteErrors (exc : Option BulkWriteException) : List WriteError :=
  match exc with
  | some e => e.write_errors
  | none => []

/-- Sample write concern requesting acknowledgement. -/
def wcAck : WriteConcern := ⟨1, false, 0⟩

/-- Sample collection `db.coll`. -/
def sampleColl : Collection := Collection.new "db".toList "coll".toList wcAck

/-- Reply carrying no error fields. -/
def cleanReply : Reply := ⟨true, 1, [], none, none⟩

/-- Dispatcher whose reply never carries error fields. -/
def cleanDispatch : Dispatcher := fun _ => Except.ok cleanReply

/-- Sample write error at index 1. -/
def dupErr : WriteError := ⟨1, 11000, "dup"⟩

/-- Reply reporting one write error at index 1. -/
def dupReply : Reply := ⟨true, 1, [dupErr], none, none⟩

/-- Dispatcher whose reply reports one write error at index 1. -/
def dupDispatch : Dispatcher := fun _ => Except.ok dupReply

/-- Sample documents and filter. -/
def docAlice : BDoc := [("name", Bson.str "alice")]

/-- Second sample document. -/
def docB : BDoc := [("b", Bson.i32 2)]

/-- Third sample document. -/
def docC : BDoc := [("c", Bson.i32 3)]

/-- Sample filter document. -/
def filterX : BDoc := [("x", Bson.i32 42)]

/-- Document mixing a `$`-prefixed and a plain key. -/
def dMixed : BDoc := [("$a", Bson.i32 1), ("b", Bson.i32 2)]

theorem validate_replace_ok_iff (d : BDoc) :
    Collection.validate_replace d = Except.ok () ↔
      ∀ k ∈ docKeys d, strStartsWith k "$" = false := by
  induction d with
  | nil => simp [Collection.validate_replace, docKeys]
  | cons kv rest ih =>
      obtain ⟨k, v⟩ := kv
      by_cases h : strStartsWith k "$" = true
      · simp [Collection.validate_replace, docKeys, h]
      · simp only [Bool.not_eq_true] at h
        simp [Collection.validate_replace, docKeys, h, ih]

theorem validate_replace_not_ok (d : BDoc)
    (h : ¬ Collection.validate_replace d = Except.ok ()) :
    Collection.validate_replace d =
      Except.error (MongoError.argumentError "Replacement cannot include $ operators.") := by
  induction d with
  | nil => simp [Collection.validate_replace] at h
  | cons kv rest ih =>
      obtain ⟨k, v⟩ := kv
      by_cases hk : strStartsWith k "$" = true
      · simp [Collection.validate_replace, hk]
      · simp only [Bool.not_eq_true] at hk
        simp only [Collection.validate_replace, hk] at h ⊢
        simp only [Bool.false_eq_true, if_neg] at h ⊢
        exact ih h

theorem validate_update_ok_iff (d : BDoc) :
    Collection.validate_update d = Except.ok () ↔
      ∀ k ∈ docKeys d, strStartsWith k "$" = true := by
  induction d with
  | nil => simp [Collection.validate_update, docKeys]
  | cons kv rest ih =>
      obtain ⟨k, v⟩ := kv
      by_cases h : strStartsWith k "$" = true
      · simp [Collection.validate_update, docKeys, h, ih]
      · simp only [Bool.not_eq_true] at h
        simp [Collection.validate_update, docKeys, h]

theorem validate_update_not_ok (d : BDoc)
    (h : ¬ Collection.validate_update d = Except.ok ()) :
    Collection.validate_update d =
      Except.error (MongoError.argumentError "Update only works with $ operators.") := by
  induction d with
  | nil => simp [Collection.validate_update] at h
  | cons kv rest ih =>
      obtain ⟨k, v⟩ := kv
      by_cases hk : strStartsWith k "$" = true
      · simp only [Collection.validate_update, hk] at h ⊢
        simp only [Bool.not_true, Bool.false_eq_true, if_neg] at h ⊢
        exact ih h
      · simp only [Bool.not_eq_true] at hk
        simp [Collection.validate_update, hk]

/-- C5: `validate_replace d` succeeds iff no top-level key of `d` starts
with `$` and otherwise returns the argument error; `validate_update d`
succeeds iff every top-level key of `d` starts with `$` (so it succeeds
vacuously on the empty document) and otherwise returns the argument
error. -/
theorem c5_validate_rules (d : BDoc) :
    (Collection.validate_replace d = Except.ok () ↔
      ∀ k ∈ docKeys d, strStartsWith k "$" = false) ∧
    ((∃ k ∈ docKeys d, strStartsWith k "$" = true) →
      Collection.validate_replace d =
        Except.error (MongoError.argumentError "Replacement cannot include $ operators.")) ∧
    (Collection.validate_update d = Except.ok () ↔
      ∀ k ∈ docKeys d, strStartsWith k "$" = true) ∧
    ((∃ k ∈ docKeys d, strStartsWith k "$" = false) →
      Collection.validate_update d =
        Except.error (MongoError.argumentError "Update only works with $ operators.")) ∧
    Collection.validate_update ([] : BDoc) = Except.ok () := by
  refine ⟨validate_replace_ok_iff d, ?_, validate_update_ok_iff d, ?_, rfl⟩
  · rintro ⟨k, hk, hs⟩
    apply validate_replace_not_ok
    rw [validate_replace_ok_iff]
    intro hall
    have := hall k hk
    rw [hs] at this
    simp at this
  · rintro ⟨k, hk, hs⟩
    apply validate_update_not_ok
    rw [validate_update_ok_iff]
    intro hall
    have := hall k hk
    rw [hs] at this
    simp at this

/-- Witness for C5 on a document with one `$`-prefixed and one plain
key. -/
theorem c5_validate_rules_witness :
    Collection.validate_replace dMixed =
      Except.error (MongoError.argumentError "Replacement cannot include $ operators.") ∧
    Collection.validate_update dMixed =
      Except.error (MongoError.argumentError "Update only works with $ operators.") :=
  ⟨(c5_validate_rules dMixed).2.1 ⟨"$a", by decide, by rfl⟩,
   (c5_validate_rules dMixed).2.2.2.1 ⟨"b", by decide, by rfl⟩⟩

/-- C9 fails on the code: `Collection::name` feeds the byte index of the
first `.` (from `str::find`) to `char_indices().nth`, which counts
characters. For the two-byte database name `"aé"` with collection name
`"xy"` the method returns `"y"` instead of `"xy"`; for the one-character
database name `"é"`, and likewise for an empty collection name, the
`unwrap` panics (modelled as `none`). -/
theorem c9_name_byte_char_confusion :
    (Collection.name (Collection.new "aé".toList "xy".toList wcAck) =
        some "y".toList ∧
      "y".toList ≠ "xy".toList) ∧
    Collection.name (Collection.new "é".toList "x".toList wcAck) = none ∧
    Collection.name (Collection.new "a".toList "".toList wcAck) = none ∧
    Collection.name (Collection.new "db".toList "coll".toList wcAck) =
      some "coll".toList := by
  exact ⟨⟨by decide, by decide⟩, by decide, by decide, by decide⟩

/-- C10: connections built by `new_tcp` and `new_tls` satisfy the variant
invariant (the tag agrees with the populated stream field); every
operation on a well-formed connection avoids the panic arms and returns
the connection with both stream fields unchanged, so the invariant is
preserved. -/
theorem c10_connection_variant_invariant :
    (∀ s, (BufConnection.new_tcp s).WF) ∧
    (∀ s, (BufConnection.new_tls s).WF) ∧
    (∀ c : BufConnection, c.WF →
      c.read = some c ∧ c.read_to_end = some c ∧ c.write = some c ∧
      c.flush = some c ∧ c.get_ref.isSome = true ∧ c.get_mut.isSome = true) := by
  refine ⟨fun s => by constructor <;> simp [BufConnection.new_tcp, BufConnection.WF],
          fun s => by constructor <;> simp [BufConnection.new_tls, BufConnection.WF],
          fun c hwf => ?_⟩
  obtain ⟨h1, h2⟩ := hwf
  cases htls : c.tls with
  | true =>
      have hs : c.tls_stream.isSome = true := h1.mp htls
      obtain ⟨stream, hstream⟩ := Option.isSome_iff_exists.mp hs
      refine ⟨?_, ?_, ?_, ?_, ?_, ?_⟩ <;>
        simp [BufConnection.read, BufConnection.read_to_end, BufConnection.write,
              BufConnection.flush, BufConnection.get_ref, BufConnection.get_mut,
              htls, hstream]
  | false =>
      have hs : c.tcp_stream.isSome = true := h2.mp htls
      obtain ⟨stream, hstream⟩ := Option.isSome_iff_exists.mp hs
      refine ⟨?_, ?_, ?_, ?_, ?_, ?_⟩ <;>
        simp [BufConnection.read, BufConnection.read_to_end, BufConnection.write,
              BufConnection.flush, BufConnection.get_ref, BufConnection.get_mut,
              htls, hstream]

/-- Witness for C10 on a concrete plain connection. -/
theorem c10_connection_variant_invariant_witness :
    (BufConnection.new_tcp ⟨⟨0⟩⟩).read = some (BufConnection.new_tcp ⟨⟨0⟩⟩) ∧
    (BufConnection.new_tcp ⟨⟨0⟩⟩).get_ref.isSome = true :=
  ⟨(c10_connection_variant_invariant.2.2 (BufConnection.new_tcp ⟨⟨0⟩⟩)
      (by constructor <;> simp [BufConnection.new_tcp, BufConnection.WF])).1,
   (c10_connection_variant_invariant.2.2 (BufConnection.new_tcp ⟨⟨0⟩⟩)
      (by constructor <;> simp [BufConnection.new_tcp, BufConnection.WF])).2.2.2.2.1⟩

/-- C1 fails on the code: for three `InsertOne` models and one `DeleteOne`
model, both batchers produce a single insert batch of the three documents
and silently discard the delete; the ensuing unordered `bulk_write`
dispatches exactly one command (the insert), and the delete leaves no
trace in the result (`deleted_count` stays 0 and nothing else was
sent). -/
theorem c1_batcher_discards_non_inserts :
    Collection.get_unordered_batches
        [WriteModel.insertOne docAlice, WriteModel.insertOne docB,
         WriteModel.insertOne docC, WriteModel.deleteOne filterX] =
      [Batch.insert [docAlice, docB, docC]] ∧
    Collection.get_ordered_batches
        [WriteModel.insertOne docAlice, WriteModel.insertOne docB,
         WriteModel.insertOne docC, WriteModel.deleteOne filterX] =
      [Batch.insert [docAlice, docB, docC]] ∧
    (Collection.bulk_write sampleColl
        [WriteModel.insertOne docAlice, WriteModel.insertOne docB,
         WriteModel.insertOne docC, WriteModel.deleteOne filterX]
        false cleanDispatch 0).2.1.length = 1 ∧
    (Collection.bulk_write sampleColl
        [WriteModel.insertOne docAlice, WriteModel.insertOne docB,
         WriteModel.insertOne docC, WriteModel.deleteOne filterX]
        false cleanDispatch 0).1.deleted_count = 0 ∧
    (Collection.bulk_write sampleColl
        [WriteModel.insertOne docAlice, WriteModel.insertOne docB,
         WriteModel.insertOne docC, WriteModel.deleteOne filterX]
        false cleanDispatch 0).1.inserted_count = 3 := by
  exact ⟨rfl, rfl, rfl, rfl, rfl⟩

/-- C2 fails on the code: `bulk_write` attaches the accumulated exception
exactly when the unprocessed-request list is empty, so a fully successful
run (here: no requests at all, and also a single successful insert)
carries `Some` exception with zero write errors and no write-concern
error, where the claim demands the exception field be absent. -/
theorem c2_clean_bulk_write_attaches_empty_exception :
    (Collection.bulk_write sampleColl [] false cleanDispatch 0).1.bulk_write_exception =
      some (BulkWriteException.new [] [] [] none) ∧
    (BulkWriteException.new [] [] [] none).write_errors = [] ∧
    (BulkWriteException.new [] [] [] none).write_concern_error = none ∧
    (Collection.bulk_write sampleColl [WriteModel.insertOne docAlice]
        false cleanDispatch 0).1.bulk_write_exception =
      some (BulkWriteException.new [WriteModel.insertOne docAlice] [] [] none) := by
  exact ⟨rfl, rfl, rfl, rfl⟩

theorem validate_bulk_eq_bulkExceptionOf (reply : Reply) (wc : WriteConcern) :
    BulkWriteException.validate_bulk_write_result reply wc =
      (match bulkExceptionOf reply wc with
       | none => Except.ok ()
       | some e => Except.error (MongoError.bulkWriteError e)) := by
  unfold BulkWriteException.validate_bulk_write_result bulkExceptionOf
  split_ifs <;> rfl

theorem insert_run (c : Collection) (docs : List BDoc) (ordered : Bool)
    (wc? : Option WriteConcern) (dispatch : Dispatcher) (reply : Reply) (ctr : Nat)
    (hd : ∀ cmd, dispatch cmd = Except.ok reply) :
    c.insert docs ordered wc? dispatch ctr =
      (Except.ok ((assignIds docs ctr).2.1,
                  bulkExceptionOf reply (wc?.getD c.write_concern)),
       [[("insert", Bson.str c.coll_name),
         ("documents", Bson.array ((assignIds docs ctr).1.map Bson.document)),
         ("ordered", Bson.boolean ordered),
         ("writeConcern", Bson.document (wc?.getD c.write_concern).to_bson)]],
       (assignIds docs ctr).2.2) := by
  unfold Collection.insert
  rcases hA : assignIds docs ctr with ⟨cds, ids, ctr2⟩
  simp only [hd, validate_bulk_eq_bulkExceptionOf]
  cases hB : bulkExceptionOf reply (wc?.getD c.write_concern) <;> simp [hB]

/-- C8 fails on the code: `insert_many` on an empty document list still
dispatches one insert command (with an empty `documents` array) — the
insert helper builds and sends the command unconditionally. -/
theorem c8_empty_insert_dispatches :
    (Collection.insert_many sampleColl [] true none cleanDispatch 0).2.1 =
      [[("insert", Bson.str "coll"),
        ("documents", Bson.array []),
        ("ordered", Bson.boolean true),
        ("writeConcern", Bson.document wcAck.to_bson)]] ∧
    (Collection.insert_many sampleColl [] true none cleanDispatch 0).2.1.length = 1 := by
  exact ⟨rfl, rfl⟩

/-- C8 amended: `insert_many` on an empty list dispatches exactly one
insert command carrying an empty `documents` array; whenever the reply
carries no write errors and no write-concern error the call returns an
`InsertManyResult` with an empty id map and no exception. -/
theorem c8_empty_insert_list (c : Collection) (ordered : Bool)
    (wc? : Option WriteConcern) (dispatch : Dispatcher) (reply : Reply) (ctr : Nat)
    (hd : ∀ cmd, dispatch cmd = Except.ok reply)
    (hwe : reply.writeErrors = []) (hwce : reply.writeConcernError = none) :
    (c.insert_many [] ordered wc? dispatch ctr).1 =
      Except.ok (InsertManyResult.new (some []) none) ∧
    (c.insert_many [] ordered wc? dispatch ctr).2.1 =
      [[("insert", Bson.str c.coll_name),
        ("documents", Bson.array []),
        ("ordered", Bson.boolean ordered),
        ("writeConcern", Bson.document (wc?.getD c.write_concern).to_bson)]] := by
  have hclean : bulkExceptionOf reply (wc?.getD c.write_concern) = none := by
    unfold bulkExceptionOf
    split_ifs with h1 h2 <;> simp_all
  unfold Collection.insert_many
  rw [insert_run c [] ordered wc? dispatch reply ctr hd]
  simp [hclean, assignIds]

/-- Witness for the amended C8 on the sample collection and a clean
dispatcher. -/
theorem c8_empty_insert_list_witness :
    (Collection.insert_many sampleColl [] true none cleanDispatch 0).1 =
      Except.ok (InsertManyResult.new (some []) none) ∧
    (Collection.insert_many sampleColl [] true none cleanDispatch 0).2.1 =
      [[("insert", Bson.str sampleColl.coll_name),
        ("documents", Bson.array []),
        ("ordered", Bson.boolean true),
        ("writeConcern",
          Bson.document (((none : Option WriteConcern)).getD sampleColl.write_concern).to_bson)]] :=
  c8_empty_insert_list sampleColl true none cleanDispatch cleanReply 0
    (fun _ => rfl) rfl rfl

theorem bulkExceptionOf_clean (reply : Reply) (wc : WriteConcern)
    (hwe : reply.writeErrors = []) (hwce : reply.writeConcernError = none) :
    bulkExceptionOf reply wc = none := by
  unfold bulkExceptionOf
  split_ifs with h1 h2 <;> simp_all

theorem docInsert_of_get_none (doc : BDoc) (k : String) (v : Bson)
    (h : docGet doc k = none) : docInsert doc k v = doc ++ [(k, v)] := by
  induction doc with
  | nil => rfl
  | cons kv rest ih =>
      obtain ⟨k0, v0⟩ := kv
      by_cases hk : k0 = k
      · simp [docGet, hk] at h
      · simp only [docGet, if_neg hk] at h
        simp [docInsert, hk, ih h]

theorem docGet_append_of_get_none (doc : BDoc) (k : String) (v : Bson)
    (h : docGet doc k = none) : docGet (doc ++ [(k, v)]) k = some v := by
  induction doc with
  | nil => simp [docGet]
  | cons kv rest ih =>
      obtain ⟨k0, v0⟩ := kv
      by_cases hk : k0 = k
      · simp [docGet, hk] at h
      · simp only [docGet, if_neg hk] at h
        simp [docGet, hk, ih h]

/-- C4 fails on the code: for a document without `_id`, the generated id
is added through `bson::Document::insert`, which appends a new key at the
back — the dispatched document carries `_id` as its last key, not its
first (`name` remains the first key here). -/
theorem c4_id_not_first_key :
    (Collection.insert_one sampleColl docAlice none cleanDispatch 0).2.1 =
      [[("insert", Bson.str "coll"),
        ("documents", Bson.array [Bson.document
           [("name", Bson.str "alice"), ("_id", Bson.objectId 0)]]),
        ("ordered", Bson.boolean true),
        ("writeConcern", Bson.document wcAck.to_bson)]] ∧
    (docKeys [("name", Bson.str "alice"), ("_id", Bson.objectId 0)]).head? =
      some "name" ∧
    "name" ≠ "_id" := by
  exact ⟨rfl, rfl, by decide⟩

/-- C4 amended: along the internal insert path, a document with `_id` has
its value recorded at its index and is dispatched unchanged; a document
without `_id` gets a freshly generated ObjectId appended as the last key,
the same id is recorded at the index, and the dispatched document's `_id`
value equals it — in particular, for `insert_one` of a document without
`_id`, the dispatched document's `_id` equals `result.inserted_id`. -/
theorem c4_id_assignment :
    (∀ (docs : List BDoc) (ctr : Nat),
      List.Forall₂ (fun doc p =>
          (∀ v, docGet doc "_id" = some v → p.2 = v ∧ p.1 = doc) ∧
          (docGet doc "_id" = none →
            (∃ n, p.2 = Bson.objectId n) ∧ p.1 = doc ++ [("_id", p.2)] ∧
            docGet p.1 "_id" = some p.2))
        docs ((assignIds docs ctr).1.zip (assignIds docs ctr).2.1)) ∧
    (∀ (c : Collection) (doc : BDoc) (wc? : Option WriteConcern)
       (dispatch : Dispatcher) (reply : Reply) (ctr : Nat),
      docGet doc "_id" = none →
      (∀ cmd, dispatch cmd = Except.ok reply) →
      reply.writeErrors = [] → reply.writeConcernError = none →
      (c.insert_one doc wc? dispatch ctr).1 =
        Except.ok (InsertOneResult.new (some (Bson.objectId ctr)) none) ∧
      (c.insert_one doc wc? dispatch ctr).2.1 =
        [[("insert", Bson.str c.coll_name),
          ("documents", Bson.array [Bson.document (doc ++ [("_id", Bson.objectId ctr)])]),
          ("ordered", Bson.boolean true),
          ("writeConcern", Bson.document (wc?.getD c.write_concern).to_bson)]] ∧
      docGet (doc ++ [("_id", Bson.objectId ctr)]) "_id" =
        some (Bson.objectId ctr)) := by
  constructor
  · intro docs
    induction docs with
    | nil => intro ctr; simp [assignIds]
    | cons doc rest ih =>
        intro ctr
        cases h : docGet doc "_id" with
        | some id =>
            have htail := ih ctr
            rcases hA : assignIds rest ctr with ⟨cds, ids, ctr2⟩
            rw [hA] at htail
            simp only [assignIds, h, hA, List.zip_cons_cons]
            refine List.Forall₂.cons ⟨fun v hv => ?_, fun hn => ?_⟩ htail
            · rw [h] at hv
              exact ⟨Option.some.inj hv, rfl⟩
            · rw [h] at hn; cases hn
        | none =>
            have htail := ih (ctr + 1)
            rcases hA : assignIds rest (ctr + 1) with ⟨cds, ids, ctr2⟩
            rw [hA] at htail
            simp only [assignIds, h, hA, List.zip_cons_cons]
            refine List.Forall₂.cons ⟨fun v hv => ?_, fun _ => ?_⟩ htail
            · rw [h] at hv; cases hv
            · refine ⟨⟨ctr, rfl⟩, docInsert_of_get_none doc _ _ h, ?_⟩
              rw [docInsert_of_get_none doc _ _ h]
              exact docGet_append_of_get_none doc _ _ h
  · intro c doc wc? dispatch reply ctr hid hd hwe hwce
    have hclean := bulkExceptionOf_clean reply (wc?.getD c.write_concern) hwe hwce
    unfold Collection.insert_one
    rw [insert_run c [doc] true wc? dispatch reply ctr hd]
    simp [assignIds, hid, hclean, docInsert_of_get_none doc _ _ hid,
          docGet_append_of_get_none doc _ _ hid, InsertOneResult.new]

/-- Witness for the amended C4 on a concrete document without `_id`. -/
theorem c4_id_assignment_witness :
    (Collection.insert_one sampleColl docAlice none cleanDispatch 0).1 =
      Except.ok (InsertOneResult.new (some (Bson.objectId 0)) none) ∧
    (Collection.insert_one sampleColl docAlice none cleanDispatch 0).2.1 =
      [[("insert", Bson.str sampleColl.coll_name),
        ("documents", Bson.array [Bson.document (docAlice ++ [("_id", Bson.objectId 0)])]),
        ("ordered", Bson.boolean true),
        ("writeConcern",
          Bson.document (((none : Option WriteConcern)).getD sampleColl.write_concern).to_bson)]] ∧
    docGet (docAlice ++ [("_id", Bson.objectId 0)]) "_id" = some (Bson.objectId 0) :=
  c4_id_assignment.2 sampleColl docAlice none cleanDispatch cleanReply 0
    rfl (fun _ => rfl) rfl rfl

theorem bulkExceptionOf_errors (reply : Reply) (wc : WriteConcern)
    (hw : wc.w ≠ 0) (hwe : reply.writeErrors ≠ []) :
    bulkExceptionOf reply wc =
      some ⟨[], [], reply.writeErrors, reply.writeConcernError⟩ := by
  unfold bulkExceptionOf
  split_ifs with h1 h2 <;> simp_all

/-- C7: when the acknowledged reply reports write errors, `insert_one`
still returns `Ok`; the first write error is downgraded into the single
`WriteException` on the result's exception field and `inserted_id` is
`None`. When the reply reports no write error, `inserted_id` carries the
document's id (the recorded head of the assigned id list). -/
theorem c7_insert_one_downgrades_write_errors
    (c : Collection) (doc : BDoc) (wc? : Option WriteConcern)
    (dispatch : Dispatcher) (reply : Reply) (ctr : Nat)
    (hd : ∀ cmd, dispatch cmd = Except.ok reply)
    (hw : (wc?.getD c.write_concern).w ≠ 0) :
    (∀ e rest, reply.writeErrors = e :: rest →
      (c.insert_one doc wc? dispatch ctr).1 =
        Except.ok (InsertOneResult.new none
          (some ⟨some e, reply.writeConcernError⟩))) ∧
    (reply.writeErrors = [] →
      ∃ res, (c.insert_one doc wc? dispatch ctr).1 = Except.ok res ∧
        res.inserted_id = ((assignIds [doc] ctr).2.1).head?) := by
  unfold Collection.insert_one
  rw [insert_run c [doc] true wc? dispatch reply ctr hd]
  constructor
  · intro e rest hwe
    rw [bulkExceptionOf_errors reply _ hw (by rw [hwe]; simp)]
    cases hid : docGet doc "_id" <;>
      simp [assignIds, hid, WriteException.with_bulk_exception, hwe,
            InsertOneResult.new]
  · intro hwe
    cases hwce : reply.writeConcernError with
    | none =>
        rw [bulkExceptionOf_clean reply _ hwe hwce]
        cases hid : docGet doc "_id" <;>
          simp [assignIds, hid, InsertOneResult.new]
    | some wceVal =>
        have hb : bulkExceptionOf reply (wc?.getD c.write_concern) =
            some ⟨[], [], [], some wceVal⟩ := by
          unfold bulkExceptionOf
          split_ifs with h1 h2 <;> simp_all
        rw [hb]
        cases hid : docGet doc "_id" <;>
          simp [assignIds, hid, WriteException.with_bulk_exception,
                InsertOneResult.new]

/-- Witness for C7 on a reply reporting a duplicate-key write error. -/
theorem c7_insert_one_downgrades_write_errors_witness :
    (Collection.insert_one sampleColl docAlice none dupDispatch 0).1 =
      Except.ok (InsertOneResult.new none
        (some ⟨some dupErr, dupReply.writeConcernError⟩)) :=
  (c7_insert_one_downgrades_write_errors sampleColl docAlice none dupDispatch
      dupReply 0 (fun _ => rfl) (by decide)).1 dupErr [] rfl

theorem assignIds_ids_length (docs : List BDoc) (ctr : Nat) :
    (assignIds docs ctr).2.1.length = docs.length := by
  induction docs generalizing ctr with
  | nil => rfl
  | cons doc rest ih =>
      cases h : docGet doc "_id" with
      | some id =>
          rcases hA : assignIds rest ctr with ⟨cds, ids, ctr2⟩
          have := ih ctr
          rw [hA] at this
          simp [assignIds, h, hA, this]
      | none =>
          rcases hA : assignIds rest (ctr + 1) with ⟨cds, ids, ctr2⟩
          have := ih (ctr + 1)
          rw [hA] at this
          simp [assignIds, h, hA, this]

theorem foldl_btreeInsert_range (v : Nat → Bson) (n : Nat) :
    (List.range n).foldl (fun m (i : Nat) => btreeInsert m (i : Int) (v i)) [] =
      (List.range n).map (fun (i : Nat) => ((i : Int), v i)) := by
  induction n with
  | zero => rfl
  | succ n ih =>
      rw [List.range_succ, List.foldl_append, List.map_append, ih]
      simp only [List.foldl_cons, List.foldl_nil]
      have hnot : ((List.range n).map (fun (i : Nat) => ((i : Int), v i))).any
          (fun p => p.1 == (n : Int)) = false := by
        rw [List.any_eq_false]
        intro p hp
        rw [List.mem_map] at hp
        obtain ⟨i, hi, rfl⟩ := hp
        rw [List.mem_range] at hi
        simp only [beq_iff_eq, Int.natCast_inj]
        omega
      unfold btreeInsert
      rw [hnot]
      simp

theorem foldl_btreeRemove (es : List WriteError) :
    ∀ m : IdMap, es.foldl (fun m e => btreeRemove m e.index) m =
      m.filter (fun p => !(es.any (fun e => p.1 == e.index))) := by
  induction es with
  | nil => intro m; simp
  | cons e rest ih =>
      intro m
      rw [List.foldl_cons, ih]
      unfold btreeRemove
      rw [List.filter_filter]
      apply List.filter_congr
      intro p _
      simp only [List.any_cons, Bool.not_or]
      rw [Bool.and_comm]

theorem countP_or_disjoint {α : Type} (l : List α) (p q : α → Bool)
    (h : ∀ a ∈ l, ¬(p a = true ∧ q a = true)) :
    l.countP (fun a => p a || q a) = l.countP p + l.countP q := by
  induction l with
  | nil => simp
  | cons a rest ih =>
      have hrest := ih (fun b hb => h b (List.mem_cons_of_mem a hb))
      have ha := h a (List.mem_cons_self a rest)
      by_cases hp : p a = true
      · have hq : ¬ q a = true := fun hq => ha ⟨hp, hq⟩
        simp only [List.countP_cons, hrest, hp, hq]
        simp [hp, hq]
        omega
      · by_cases hq : q a = true
        · simp only [List.countP_cons, hrest]
          simp [hp, hq]
          omega
        · simp only [List.countP_cons, hrest]
          simp [hp, hq]

theorem countP_add_countP_not {α : Type} (l : List α) (p : α → Bool) :
    l.countP p + l.countP (fun a => !p a) = l.length := by
  induction l with
  | nil => rfl
  | cons a rest ih =>
      by_cases hp : p a = true <;> simp [List.countP_cons, hp] <;> omega

theorem countP_range_ofNat_eq_one (i0 : Nat) : ∀ n, i0 < n →
    (List.range n).countP (fun (i : Nat) => ((i0 : Int) == (i : Int))) = 1 := by
  intro n
  induction n with
  | zero => omega
  | succ n ih =>
      intro h
      rw [List.range_succ, List.countP_append]
      by_cases hi : i0 = n
      · have hz : (List.range n).countP (fun (i : Nat) => ((i0 : Int) == (i : Int))) = 0 := by
          rw [List.countP_eq_zero]
          intro i hii
          rw [List.mem_range] at hii
          simp only [beq_iff_eq, Int.natCast_inj]
          omega
        have hone : List.countP (fun (i : Nat) => ((i0 : Int) == (i : Int))) [n] = 1 := by
          simp [List.countP_cons, hi]
        rw [hz, hone]
      · have h2 : i0 < n := by omega
        have hz : List.countP (fun (i : Nat) => ((i0 : Int) == (i : Int))) [n] = 0 := by
          simp [List.countP_cons, Int.natCast_inj, hi]
        rw [ih h2, hz]

theorem countP_range_any_idxs (idxs : List Int) : ∀ n : Nat, idxs.Nodup →
    (∀ x ∈ idxs, ∃ i : Nat, i < n ∧ x = (i : Int)) →
    (List.range n).countP (fun (i : Nat) => idxs.any (fun x => x == (i : Int))) =
      idxs.length := by
  induction idxs with
  | nil => intro n _ _; simp
  | cons x rest ih =>
      intro n hnd hb
      obtain ⟨i0, hi0, hxeq⟩ := hb x (List.mem_cons_self x rest)
      have hcongr : (List.range n).countP
            (fun (i : Nat) => (x :: rest).any (fun y => y == (i : Int))) =
          (List.range n).countP
            (fun (i : Nat) => (x == (i : Int)) || rest.any (fun y => y == (i : Int))) := by
        apply List.countP_congr
        intro a _
        simp [List.any_cons]
      rw [hcongr, countP_or_disjoint]
      · have h1 : (List.range n).countP (fun (i : Nat) => x == (i : Int)) = 1 := by
          subst hxeq
          exact countP_range_ofNat_eq_one i0 n hi0
        rw [h1, ih n hnd.of_cons (fun y hy => hb y (List.mem_cons_of_mem x hy))]
        simp [Nat.add_comm]
      · intro a _ hcon
        obtain ⟨hpa, hqa⟩ := hcon
        simp only [beq_iff_eq] at hpa
        simp only [List.any_eq_true, beq_iff_eq] at hqa
        obtain ⟨y, hy, hyeq⟩ := hqa
        have hxy : x ∈ rest := by rw [hpa, ← hyeq]; exact hy
        exact (List.nodup_cons.mp hnd).1 hxy

theorem insert_many_run (c : Collection) (docs : List BDoc) (ordered : Bool)
    (wc? : Option WriteConcern) (dispatch : Dispatcher) (reply : Reply) (ctr : Nat)
    (hd : ∀ cmd, dispatch cmd = Except.ok reply) :
    c.insert_many docs ordered wc? dispatch ctr =
      (Except.ok (InsertManyResult.new
          (some ((excWriteErrors (bulkExceptionOf reply (wc?.getD c.write_concern))).foldl
                   (fun m error => btreeRemove m error.index)
                   ((List.range (assignIds docs ctr).2.1.length).foldl
                      (fun m (i : Nat) => btreeInsert m (i : Int)
                        ((assignIds docs ctr).2.1.getD i Bson.null)) [])))
          (bulkExceptionOf reply (wc?.getD c.write_concern))),
       [[("insert", Bson.str c.coll_name),
         ("documents", Bson.array ((assignIds docs ctr).1.map Bson.document)),
         ("ordered", Bson.boolean ordered),
         ("writeConcern", Bson.document (wc?.getD c.write_concern).to_bson)]],
       (assignIds docs ctr).2.2) := by
  unfold Collection.insert_many
  rw [insert_run c docs ordered wc? dispatch reply ctr hd]
  cases hB : bulkExceptionOf reply (wc?.getD c.write_concern) <;>
    simp [hB, excWriteErrors]

/-- C3: for a successful `insert_many` run, the result's id map has an
entry at request index `i` iff no write error recorded on the result's
exception has `index == i`; when the reported error indices are pairwise
distinct and in range (well-formed server reply), the number of map
entries plus the number of write errors equals the number of input
documents. -/
theorem c3_insert_many_reconciliation
    (c : Collection) (docs : List BDoc) (ordered : Bool) (wc? : Option WriteConcern)
    (dispatch : Dispatcher) (reply : Reply) (ctr : Nat) (res : InsertManyResult)
    (hd : ∀ cmd, dispatch cmd = Except.ok reply)
    (hok : (c.insert_many docs ordered wc? dispatch ctr).1 = Except.ok res)
    (hnodup : ((excWriteErrors res.exception).map WriteError.index).Nodup)
    (hrange : ∀ e ∈ excWriteErrors res.exception,
      0 ≤ e.index ∧ e.index < (docs.length : Int)) :
    (∀ i : Nat, i < docs.length →
      (btreeHasKey (res.inserted_ids.getD []) (i : Int) = true ↔
        ∀ e ∈ excWriteErrors res.exception, e.index ≠ (i : Int))) ∧
    (res.inserted_ids.getD []).length + (excWriteErrors res.exception).length =
      docs.length := by
  rw [insert_many_run c docs ordered wc? dispatch reply ctr hd] at hok
  have hok2 := Except.ok.inj hok
  subst hok2
  dsimp only [InsertManyResult.new] at hnodup hrange ⊢
  simp only [Option.getD_some] at hnodup hrange ⊢
  rw [assignIds_ids_length,
      foldl_btreeInsert_range (fun i => (assignIds docs ctr).2.1.getD i Bson.null)
        docs.length,
      foldl_btreeRemove]
  set wes := excWriteErrors (bulkExceptionOf reply (wc?.getD c.write_concern)) with hwes
  set v : Nat → Bson := fun i => (assignIds docs ctr).2.1.getD i Bson.null with hv
  set n := docs.length with hn
  constructor
  · intro i hi
    unfold btreeHasKey
    simp only [List.any_eq_true, List.mem_filter, List.mem_map, List.mem_range]
    constructor
    · rintro ⟨p, ⟨⟨j, hj, rfl⟩, hq⟩, hpk⟩
      intro e he heq
      rw [Bool.not_eq_true', List.any_eq_false] at hq
      have hji : ((j : Int)) = (i : Int) := by
        simpa [beq_iff_eq] using hpk
      have hne := hq e he
      simp only [beq_iff_eq] at hne
      exact hne (hji.trans heq.symm)
    · intro hall
      refine ⟨((i : Int), v i), ⟨⟨i, hi, rfl⟩, ?_⟩, by simp⟩
      rw [Bool.not_eq_true', List.any_eq_false]
      intro e he
      simp only [beq_iff_eq]
      exact fun hh => hall e he hh.symm
  · rw [← List.countP_eq_length_filter, List.countP_map]
    have hstep : (List.range n).countP
          ((fun p => !(wes.any (fun e => p.1 == e.index))) ∘ fun (i : Nat) => ((i : Int), v i)) =
        (List.range n).countP
          (fun (i : Nat) => !((wes.map WriteError.index).any (fun x => x == (i : Int)))) := by
      apply List.countP_congr
      intro x _
      have hx : (wes.any (fun e => ((x : Int)) == e.index)) =
          ((wes.map WriteError.index).any (fun y => y == (x : Int))) := by
        induction wes with
        | nil => rfl
        | cons e rest ih =>
            simp only [List.any_cons, List.map_cons, ih]
            rw [Bool.beq_comm]
      dsimp [Function.comp]
      rw [hx]
    rw [hstep]
    have hcount := countP_add_countP_not (List.range n)
      (fun (i : Nat) => (wes.map WriteError.index).any (fun x => x == (i : Int)))
    simp only [List.length_range] at hcount
    have hidx := countP_range_any_idxs (wes.map WriteError.index) n hnodup ?_
    · rw [List.length_map] at hidx
      omega
    · intro x hx
      rw [List.mem_map] at hx
      obtain ⟨e, he, rfl⟩ := hx
      obtain ⟨h0, hlt⟩ := hrange e he
      exact ⟨e.index.toNat, by omega, by omega⟩

/-- Witness for C3: three documents, one write error at index 1; the id
map keeps entries 0 and 2 and the counts add up. -/
theorem c3_insert_many_reconciliation_witness :
    (∀ i : Nat, i < [docAlice, docB, docC].length →
      (btreeHasKey ((InsertManyResult.new
            (some [((0 : Int), Bson.objectId 0), ((2 : Int), Bson.objectId 2)])
            (some ⟨[], [], [dupErr], none⟩)).inserted_ids.getD []) (i : Int) = true ↔
        ∀ e ∈ excWriteErrors (InsertManyResult.new
            (some [((0 : Int), Bson.objectId 0), ((2 : Int), Bson.objectId 2)])
            (some ⟨[], [], [dupErr], none⟩)).exception, e.index ≠ (i : Int))) ∧
    ((InsertManyResult.new
        (some [((0 : Int), Bson.objectId 0), ((2 : Int), Bson.objectId 2)])
        (some ⟨[], [], [dupErr], none⟩)).inserted_ids.getD []).length +
      (excWriteErrors (InsertManyResult.new
        (some [((0 : Int), Bson.objectId 0), ((2 : Int), Bson.objectId 2)])
        (some ⟨[], [], [dupErr], none⟩)).exception).length =
      [docAlice, docB, docC].length :=
  c3_insert_many_reconciliation sampleColl [docAlice, docB, docC] false none
    dupDispatch dupReply 0
    (InsertManyResult.new
      (some [((0 : Int), Bson.objectId 0), ((2 : Int), Bson.objectId 2)])
      (some ⟨[], [], [dupErr], none⟩))
    (fun _ => rfl) rfl (by decide) (by decide)

/-- C6: a replacement with a `$`-prefixed key fails `replace_one` and
`find_one_and_replace` with the argument error, and an update with a key
not starting with `$` fails `update_one`, `update_many` and
`find_one_and_update` with the argument error; in every case the
dispatched-command list is empty — the dispatcher is never invoked. -/
theorem c6_validation_before_dispatch
    (c : Collection) (filter d : BDoc) (upsert : Bool) (wc? : Option WriteConcern)
    (dispatch : Dispatcher) (options : Option FindOneAndUpdateOptions) :
    ((∃ k ∈ docKeys d, strStartsWith k "$" = true) →
      c.replace_one filter d upsert wc? dispatch =
        (Except.error (MongoError.argumentError "Replacement cannot include $ operators."), []) ∧
      c.find_one_and_replace filter d options dispatch =
        (Except.error (MongoError.argumentError "Replacement cannot include $ operators."), [])) ∧
    ((∃ k ∈ docKeys d, strStartsWith k "$" = false) →
      c.update_one filter d upsert wc? dispatch =
        (Except.error (MongoError.argumentError "Update only works with $ operators."), []) ∧
      c.update_many filter d upsert wc? dispatch =
        (Except.error (MongoError.argumentError "Update only works with $ operators."), []) ∧
      c.find_one_and_update filter d options dispatch =
        (Except.error (MongoError.argumentError "Update only works with $ operators."), [])) := by
  constructor
  · intro hbad
    have hval : Collection.validate_replace d =
        Except.error (MongoError.argumentError "Replacement cannot include $ operators.") := by
      apply validate_replace_not_ok
      rw [validate_replace_ok_iff]
      intro hall
      obtain ⟨k, hk, hs⟩ := hbad
      have := hall k hk
      rw [hs] at this
      simp at this
    constructor
    · simp [Collection.replace_one, hval]
    · simp [Collection.find_one_and_replace, hval]
  · intro hbad
    have hval : Collection.validate_update d =
        Except.error (MongoError.argumentError "Update only works with $ operators.") := by
      apply validate_update_not_ok
      rw [validate_update_ok_iff]
      intro hall
      obtain ⟨k, hk, hs⟩ := hbad
      have := hall k hk
      rw [hs] at this
      simp at this
    refine ⟨?_, ?_, ?_⟩
    · simp [Collection.update_one, hval]
    · simp [Collection.update_many, hval]
    · simp [Collection.find_one_and_update, hval]

/-- Witness for C6 on the mixed-key document (one `$`-prefixed key, one
plain key). -/
theorem c6_validation_before_dispatch_witness :
    (Collection.replace_one sampleColl filterX dMixed false none cleanDispatch =
        (Except.error (MongoError.argumentError "Replacement cannot include $ operators."), []) ∧
      Collection.find_one_and_replace sampleColl filterX dMixed none cleanDispatch =
        (Except.error (MongoError.argumentError "Replacement cannot include $ operators."), [])) ∧
    (Collection.update_one sampleColl filterX dMixed false none cleanDispatch =
        (Except.error (MongoError.argumentError "Update only works with $ operators."), []) ∧
      Collection.update_many sampleColl filterX dMixed false none cleanDispatch =
        (Except.error (MongoError.argumentError "Update only works with $ operators."), []) ∧
      Collection.find_one_and_update sampleColl filterX dMixed none cleanDispatch =
        (Except.error (MongoError.argumentError "Update only works with $ operators."), [])) :=
  ⟨(c6_validation_before_dispatch sampleColl filterX dMixed false none
      cleanDispatch none).1 ⟨"$a", by decide, by rfl⟩,
   (c6_validation_before_dispatch sampleColl filterX dMixed false none
      cleanDispatch none).2 ⟨"b", by decide, by rfl⟩⟩
